import Mathlib

/-
Verification development for the envtools light-extraction tool
(src/extractLightsVariance.cpp).  The region partitioner, the JSON output
stage and the top-level control flow of main are embedded shallowly below.
Scalar pixel arithmetic (C++ double) is modelled by an arbitrary linearly
ordered commutative ring for the partitioner, and by the rationals for the
light records; concrete counterexample images use integer luminance.
-/

/-- A rectangular region of the image: fields follow SatRegion's
members x, y, w, h (cached moment sums are recomputable from the image
and are not needed for the partition-shape claims). -/
structure SatRegion where
  x : ℕ
  y : ℕ
  w : ℕ
  h : ℕ
deriving DecidableEq

/-- An input image: width, height and a per-pixel luminance function
(first argument is the column, second the row). -/
structure Image (α : Type) where
  width : ℕ
  height : ℕ
  lum : ℕ → ℕ → α

/-- Sum of the luminance over the pixel rectangle of origin (x, y),
width w and height h.  This is the moment-1 aggregate that the C++ code
obtains in O(1) from the SummedAreaTable. -/
def regionSum {α : Type} [LinearOrderedCommRing α] (lum : ℕ → ℕ → α)
    (x y w h : ℕ) : α :=
  ((List.range w).map (fun i => ((List.range h).map (fun j => lum (x + i) (y + j))).sum)).sum

/-- Modelled from the spec: the split-position search of
SummedAreaTableRegion (header not under src/).  Per the spec the cut is
found by a linear scan along the split axis choosing the position that
divides the region's energy as evenly as possible, first minimum on
ties.  The scan returns the first candidate in 1..len-1 of minimal
cost. -/
def bestCut {α : Type} [LinearOrderedCommRing α] (cost : ℕ → α) (len : ℕ) : ℕ :=
  ((List.range (len - 1)).map (fun k => k + 1)).foldl
    (fun best k => if cost k < cost best then k else best) 1

/-- Modelled from the spec: SatRegion::split_h (header not under src/).
Splits the region along its height into a top child A and bottom child
B at the energy-balancing cut position. -/
def split_h {α : Type} [LinearOrderedCommRing α] (lum : ℕ → ℕ → α)
    (r : SatRegion) : SatRegion × SatRegion :=
  let total := regionSum lum r.x r.y r.w r.h
  let cut := bestCut (fun k => |2 * regionSum lum r.x r.y r.w k - total|) r.h
  (⟨r.x, r.y, r.w, cut⟩, ⟨r.x, r.y + cut, r.w, r.h - cut⟩)

/-- Modelled from the spec: SatRegion::split_w (header not under src/).
Splits the region along its width into a left child A and right child B
at the energy-balancing cut position. -/
def split_w {α : Type} [LinearOrderedCommRing α] (lum : ℕ → ℕ → α)
    (r : SatRegion) : SatRegion × SatRegion :=
  let total := regionSum lum r.x r.y r.w r.h
  let cut := bestCut (fun k => |2 * regionSum lum r.x r.y k r.h - total|) r.w
  (⟨r.x, r.y, cut, r.h⟩, ⟨r.x + cut, r.y, r.w - cut, r.h⟩)

/-- The two split axes. -/
inductive Axis
  | w
  | h
deriving DecidableEq

/-- Axis choice of splitRecursive, lines 93-96: split_w when the region
is strictly wider than tall (r._w > r._h), split_h otherwise. -/
def splitAxis (w h : ℕ) : Axis := if h < w then Axis.w else Axis.h

/-- splitRecursive, lines 82-105.  A region with w < 2 or h < 2 or an
exhausted budget is appended as a leaf.  Otherwise the region is split
along the axis chosen by splitAxis, and each child is recursed into
with budget n - 1 only when both of its dimensions exceed 2; a child
failing that test is discarded (the C++ has no else branch appending
it).  The returned list is the vector of appended leaves, A side first. -/
def splitRecursive {α : Type} [LinearOrderedCommRing α] (lum : ℕ → ℕ → α) :
    ℕ → SatRegion → List SatRegion
  | 0, r => [r]
  | n + 1, r =>
    if r.w < 2 ∨ r.h < 2 then [r]
    else
      let AB := match splitAxis r.w r.h with
        | Axis.w => split_w lum r
        | Axis.h => split_h lum r
      (if 2 < AB.1.h ∧ 2 < AB.1.w then splitRecursive lum n AB.1 else []) ++
      (if 2 < AB.2.h ∧ 2 < AB.2.w then splitRecursive lum n AB.2 else [])

/-- medianVarianceCut, lines 114-124: clears the vector and splits the
whole-image region recursively with depth budget n. -/
def medianVarianceCut {α : Type} [LinearOrderedCommRing α] (img : Image α)
    (n : ℕ) : List SatRegion :=
  splitRecursive img.lum n ⟨0, 0, img.width, img.height⟩

/-- Whether some region of the list contains the pixel (px, py). -/
def covered (regions : List SatRegion) (px py : ℕ) : Bool :=
  regions.any (fun r =>
    decide (r.x ≤ px) && decide (px < r.x + r.w) &&
    decide (r.y ≤ py) && decide (py < r.y + r.h))

/-- A 4x4 image of uniform luminance 1. -/
def uniform4x4 : Image ℤ := ⟨4, 4, fun _ _ => 1⟩

/-- A 4x4 image whose top row has luminance 10 and whose other rows
have luminance 1. -/
def brightTop4x4 : Image ℤ := ⟨4, 4, fun _ y => if y = 0 then 10 else 1⟩

/-- A light as consumed by outputJSON (lines 126-195): centroid
position (u, v) in normalized coordinates, normalized footprint,
averaged color, average luminosity, total sum, variance and error
flag.  Doubles are modelled by rationals. -/
structure Light where
  u : ℚ
  v : ℚ
  w : ℚ
  h : ℚ
  rAverage : ℚ
  gAverage : ℚ
  bAverage : ℚ
  lumAverage : ℚ
  sum : ℚ
  variance : ℚ
  error : Bool
deriving DecidableEq

/-- One JSON record as printed by outputJSON: the value of the counter
i when the record was printed, whether a comma was printed after it
(i < numLightsMax - 1), and the light whose fields it serializes. -/
structure EmitRec where
  index : ℕ
  comma : Bool
  light : Light
deriving DecidableEq

/-- Builds the record for an indexed light under cap max. -/
def mkRec (max : ℕ) (p : ℕ × Light) : EmitRec := ⟨p.1, decide (p.1 < max - 1), p.2⟩

/-- The emission loop of outputJSON, lines 134-192: iterate over the
lights while i < max; a light with centroid v >= 0.5 is skipped by
continue (leaving i unchanged); otherwise a record is printed with the
current i, a comma follows when i < max - 1, and i is incremented. -/
def emitLoop (max : ℕ) : List Light → ℕ → List EmitRec
  | [], _ => []
  | l :: rest, i =>
    if max ≤ i then []
    else if (1:ℚ)/2 ≤ l.v then emitLoop max rest i
    else ⟨i, decide (i < max - 1), l⟩ :: emitLoop max rest (i + 1)

/-- numLightsMax of outputJSON, line 129: the requested count when
positive, otherwise the size of the light list. -/
def numLightsMax (numLights : ℤ) (lights : List Light) : ℕ :=
  if 0 < numLights then numLights.toNat else lights.length

/-- The record stream produced by outputJSON for a light list and a
requested maximum light count. -/
def outputJSONRecords (lights : List Light) (numLights : ℤ) : List EmitRec :=
  emitLoop (numLightsMax numLights lights) lights 0

/-- The reading of outputJSON asserted by claim C4: identical to
emitLoop except that a culled light (v >= 0.5) also advances the
counter i, so that it counts toward the cap and comma placement
exactly as an emitted record would. -/
def emitLoopClaimReading (max : ℕ) : List Light → ℕ → List EmitRec
  | [], _ => []
  | l :: rest, i =>
    if max ≤ i then []
    else if (1:ℚ)/2 ≤ l.v then emitLoopClaimReading max rest (i + 1)
    else ⟨i, decide (i < max - 1), l⟩ :: emitLoopClaimReading max rest (i + 1)

/-- A light survives the hemisphere cull of line 141 when its centroid
v is below 0.5. -/
def notCulled (l : Light) : Bool := decide (l.v < 1/2)

/-- The amended description of the record stream: the non-culled
lights, in order, capped at max records, indexed consecutively from 0,
with a comma after each record of index below max - 1. -/
def emitRecordsSkipped (lights : List Light) (max : ℕ) : List EmitRec :=
  (((lights.filter notCulled).take max).enum).map (mkRec max)

/-- A light with the given centroid v and all other fields zero. -/
def mkLight (v : ℚ) : Light := ⟨0, v, 0, 0, 0, 0, 0, 0, 0, 0, false⟩

/-- Three lights: the first culled (v = 1), the next two not culled. -/
def cexLights : List Light := [mkLight 1, mkLight 0, mkLight (1/5)]

/-- The two image loaders of the program. -/
inductive Loader
  | exr
  | hdr
deriving DecidableEq

/-- The loader main invokes on the positional input path, line 267:
load_image_exr is called unconditionally on argv[optind]; the path is
never inspected and load_image_hdr (lines 66-76) is never called. -/
def mainLoader (_path : String) : Loader := Loader.exr

/-- A concrete input path with the .hdr extension. -/
def hdrPath : String := "file.hdr"

/-- The .hdr extension. -/
def hdrSuffix : String := ".hdr"

/-- Result of command-line parsing in main, lines 230-259: whether
getopt met an unknown flag, whether a positional file argument is
present, and the parsed numCuts (-n) and numLights (-m) values. -/
structure CLIResult where
  unknownFlag : Bool
  hasFile : Bool
  numCuts : ℕ
  numLights : ℤ
  debug : Bool
deriving DecidableEq

/-- One item of the standard-output stream of main: the error text
printed by load_image_exr on a failed decode (line 59), one region
block of printVariance (lines 36-46), or the JSON array printed by
outputJSON (lines 126-195). -/
inductive OutItem
  | decodeError
  | regionBlock (i : ℕ) (r : SatRegion)
  | jsonArray (recs : List EmitRec)
deriving DecidableEq

/-- printVariance, lines 36-46: one block of text per region, indexed
from 0 in list order. -/
def printVarianceItems (regions : List SatRegion) : List OutItem :=
  regions.enum.map (fun p => OutItem.regionBlock p.1 p.2)

/-- The region list main computes for a decoded image (line 299), with
the depth budget numCuts; no regions exist when decoding failed. -/
def runRegions {α : Type} [LinearOrderedCommRing α] (cli : CLIResult)
    (dec : Option (Image α)) : List SatRegion :=
  match dec with
  | none => []
  | some img => medianVarianceCut img cli.numCuts

/-- Control flow of main, lines 210-421, as exit code plus the stream
written to standard output.  An unknown flag or a missing positional
argument reaches usage() and exits 1 with nothing on stdout (usage
prints to stderr).  A failed decode prints the decoder error and exits
1.  Otherwise printVariance dumps the regions, an empty region list
aborts with exit 1 (the message goes to stderr), and a successful run
prints the JSON array of outputJSON and exits 0.  The synthesis, sort
and merge stages between the partition and the output (external
collaborators createLightsFromRegions and mergeLights) are abstracted
as the function mkLights from the region list to the final light
list. -/
def mainRun {α : Type} [LinearOrderedCommRing α] (cli : CLIResult)
    (dec : Option (Image α)) (mkLights : List SatRegion → List Light) :
    ℕ × List OutItem :=
  if cli.unknownFlag then (1, [])
  else if cli.hasFile then
    match dec with
    | none => (1, [OutItem.decodeError])
    | some img =>
      let regions := medianVarianceCut img cli.numCuts
      if regions.isEmpty then (1, printVarianceItems regions)
      else (0, printVarianceItems regions ++
        [OutItem.jsonArray (outputJSONRecords (mkLights regions) cli.numLights)])
  else (1, [])

/-- A 1x1 image of luminance 1: its partition is the single region
(0,0,1,1) for every depth budget. -/
def img1x1 : Image ℤ := ⟨1, 1, fun _ _ => 1⟩

/-- A parse result with no unknown flag, a file argument present, and
the source defaults numCuts = 8 (line 227) and numLights = 1
(line 217). -/
def cliDefaults : CLIResult := ⟨false, true, 8, 1, false⟩

/-- The direction vector computed by outputJSON, lines 154-160, before
normalization: phi = x * 2 * PI - PI * 0.5, theta = (1 - y) * PI,
d = (sin theta * cos phi, cos theta, sin theta * sin phi). -/
noncomputable def sphericalDirection (u v : ℝ) : ℝ × ℝ × ℝ :=
  let phi : ℝ := u * 2 * Real.pi - Real.pi * (1 / 2)
  let theta : ℝ := (1 - v) * Real.pi
  (Real.sin theta * Real.cos phi, Real.cos theta, Real.sin theta * Real.sin phi)

/-- Modelled from the spec: Vec3d::normalize (Math header not under
src/) divides the vector by its Euclidean norm; outputJSON serializes
the normalized vector (line 163). -/
noncomputable def vecNormalize (d : ℝ × ℝ × ℝ) : ℝ × ℝ × ℝ :=
  let n := Real.sqrt (d.1 * d.1 + d.2.1 * d.2.1 + d.2.2 * d.2.2)
  (d.1 / n, d.2.1 / n, d.2.2 / n)

/-- The direction vector outputJSON serializes for a light of
normalized centroid (u, v). -/
noncomputable def outputDirection (u v : ℝ) : ℝ × ℝ × ℝ :=
  vecNormalize (sphericalDirection u v)

/-- The direction mapping in the words of the spec: longitude =
2 pi u - pi / 2, colatitude = pi (1 - v), direction =
(sin(colatitude) cos(longitude), cos(colatitude),
sin(colatitude) sin(longitude)), then normalized. -/
noncomputable def specDirection (u v : ℝ) : ℝ × ℝ × ℝ :=
  let longitude : ℝ := 2 * Real.pi * u - Real.pi / 2
  let colatitude : ℝ := Real.pi * (1 - v)
  vecNormalize (Real.sin colatitude * Real.cos longitude, Real.cos colatitude,
    Real.sin colatitude * Real.sin longitude)

/-- Claim C1: refuted on the code (code_bug).  For the 4x4 image with a
bright top row and depth budget 1, the root is split along its height
at cut 1; the top child (0,0,4,1) fails the descent test h > 2 and is
silently discarded rather than emitted, so the returned leaves are just
[(0,1,4,3)] and pixel (0,0) of the image is covered by no leaf: the
leaves are not a partition of the image. -/
theorem medianVarianceCut_gap_at_failing_input :
    medianVarianceCut brightTop4x4 1 = [⟨0, 1, 4, 3⟩] ∧
    1 ≤ brightTop4x4.width ∧ 1 ≤ brightTop4x4.height ∧
    covered (medianVarianceCut brightTop4x4 1) 0 0 = false := by
  decide

/-- Claim C2: refuted on the code (code_bug).  The uniform 4x4 image
has positive width and height, yet medianVarianceCut with the default
depth budget 8 returns no regions at all: the root splits into two 4x2
children and both are discarded by the descent test.  (Conversely a
zero-area image yields one degenerate leaf, not an empty output.) -/
theorem medianVarianceCut_empty_on_uniform4x4 :
    1 ≤ uniform4x4.width ∧ 1 ≤ uniform4x4.height ∧
    medianVarianceCut uniform4x4 8 = [] ∧
    medianVarianceCut (⟨0, 0, fun _ _ => 0⟩ : Image ℤ) 8 = [⟨0, 0, 0, 0⟩] := by
  decide

/-- Helper for claim C5: each call of splitRecursive emits one leaf or
recurses into at most two children with a decremented budget. -/
theorem splitRecursive_length_le {α : Type} [LinearOrderedCommRing α]
    (lum : ℕ → ℕ → α) :
    ∀ (n : ℕ) (r : SatRegion), (splitRecursive lum n r).length ≤ 2 ^ n
  | 0, _ => by simp [splitRecursive]
  | n + 1, r => by
    rw [splitRecursive]
    by_cases hsmall : r.w < 2 ∨ r.h < 2
    · rw [if_pos hsmall]
      simpa using Nat.one_le_two_pow
    · rw [if_neg hsmall]
      have key : ∀ p : SatRegion × SatRegion,
          ((if 2 < p.1.h ∧ 2 < p.1.w then splitRecursive lum n p.1 else []) ++
           (if 2 < p.2.h ∧ 2 < p.2.w then splitRecursive lum n p.2 else [])).length ≤
            2 ^ (n + 1) := by
        intro p
        rw [List.length_append]
        have hA : (if 2 < p.1.h ∧ 2 < p.1.w then splitRecursive lum n p.1 else []).length ≤
            2 ^ n := by
          split
          · exact splitRecursive_length_le lum n p.1
          · simp
        have hB : (if 2 < p.2.h ∧ 2 < p.2.w then splitRecursive lum n p.2 else []).length ≤
            2 ^ n := by
          split
          · exact splitRecursive_length_le lum n p.2
          · simp
        calc (if 2 < p.1.h ∧ 2 < p.1.w then splitRecursive lum n p.1 else []).length +
              (if 2 < p.2.h ∧ 2 < p.2.w then splitRecursive lum n p.2 else []).length ≤
            2 ^ n + 2 ^ n := Nat.add_le_add hA hB
          _ = 2 ^ (n + 1) := by ring
      exact key _

/-- Claim C5: confirmed.  For every image (over any linearly ordered
commutative ring of luminance values) and every depth budget n,
medianVarianceCut produces at most 2 ^ n leaf regions. -/
theorem medianVarianceCut_length_le_two_pow {α : Type} [LinearOrderedCommRing α]
    (img : Image α) (n : ℕ) : (medianVarianceCut img n).length ≤ 2 ^ n :=
  splitRecursive_length_le img.lum n _

/-- Claim C6, counterexample: on a square region (width 4 = height 4)
the code takes the split_h branch, i.e. the tie is broken toward the
height axis, not the width axis as the claim states. -/
theorem splitAxis_tie_not_width : splitAxis 4 4 = Axis.h ∧ splitAxis 4 4 ≠ Axis.w := by
  decide

/-- Claim C6, amended: splitRecursive chooses the width axis exactly
when the region is strictly wider than tall; on ties (width = height)
it splits along the height axis. -/
theorem splitAxis_width_iff_strictly_wider (w h : ℕ) :
    splitAxis w h = Axis.w ↔ h < w := by
  unfold splitAxis
  by_cases hlt : h < w
  · simp [hlt]
  · simp [hlt]

/-- Helper: the records built from an indexed list carry exactly the
lights of the list, in order. -/
theorem map_light_mkRec (max : ℕ) :
    ∀ (ls : List Light) (i : ℕ),
      (((ls.enumFrom i).map (mkRec max)).map EmitRec.light) = ls
  | [], _ => rfl
  | l :: rest, i => by
    simp only [List.enumFrom, List.map_cons, mkRec]
    exact congrArg (fun t => l :: t) (map_light_mkRec max rest (i + 1))

/-- Helper: enumFrom preserves length. -/
theorem length_enumFrom_eq {β : Type} :
    ∀ (ls : List β) (i : ℕ), (ls.enumFrom i).length = ls.length
  | [], _ => rfl
  | _ :: rest, i => by
    simp only [List.enumFrom, List.length_cons]
    exact congrArg (fun t => t + 1) (length_enumFrom_eq rest (i + 1))

/-- Helper: closed form of the emission loop of outputJSON.  Starting
from counter i with cap max, the emitted records are the first
max - i non-culled lights, indexed consecutively from i. -/
theorem emitLoop_eq (max : ℕ) :
    ∀ (ls : List Light) (i : ℕ),
      emitLoop max ls i =
        (((ls.filter notCulled).take (max - i)).enumFrom i).map (mkRec max)
  | [], i => by simp [emitLoop]
  | l :: rest, i => by
    by_cases hi : max ≤ i
    · have h0 : max - i = 0 := Nat.sub_eq_zero_of_le hi
      simp [emitLoop, hi, h0]
    · by_cases hc : (1:ℚ)/2 ≤ l.v
      · have hn : notCulled l = false := by
          simp only [notCulled, decide_eq_false_iff_not, not_lt]
          linarith
        rw [emitLoop]
        simp only [if_neg hi, if_pos hc, List.filter_cons, hn]
        exact emitLoop_eq max rest i
      · have hn : notCulled l = true := by
          simp only [notCulled, decide_eq_true_eq]
          linarith [not_le.mp hc]
        have hmi : max - i = (max - (i + 1)) + 1 := by omega
        rw [emitLoop]
        simp only [if_neg hi, if_neg hc, List.filter_cons, hn, if_pos, hmi,
          List.take_succ_cons, List.enumFrom, List.map_cons]
        refine congrArg (fun t => _ :: t) ?_
        exact emitLoop_eq max rest (i + 1)

/-- Helper: the loop never emits more than max - i records. -/
theorem emitLoop_length_le (max : ℕ) (ls : List Light) (i : ℕ) :
    (emitLoop max ls i).length ≤ max - i := by
  rw [emitLoop_eq, List.length_map, length_enumFrom_eq]
  calc ((ls.filter notCulled).take (max - i)).length ≤ max - i := by
        rw [List.length_take]
        exact min_le_left _ _

/-- Claim C4, counterexample: with the light list [v=1, v=0, v=1/5]
and requested count 2, the code emits two records (the culled first
light leaves the counter untouched), while the claim's reading, under
which a culled light advances the counter exactly as an emitted record
would, yields only one record: the culled light does not count toward
the cap. -/
theorem outputJSON_culled_advances_index_false :
    outputJSONRecords cexLights 2 ≠
      emitLoopClaimReading (numLightsMax 2 cexLights) cexLights 0 ∧
    (outputJSONRecords cexLights 2).length = 2 ∧
    (emitLoopClaimReading (numLightsMax 2 cexLights) cexLights 0).length = 1 := by
  norm_num [outputJSONRecords, numLightsMax, cexLights, emitLoop,
    emitLoopClaimReading, mkLight]

/-- Claim C4, amended: lights with centroid v >= 0.5 are excluded from
the emitted record set but do not advance the sequential emission
index; the emitted records are exactly the non-culled lights in order,
capped at numLightsMax, indexed consecutively from 0, with a comma
after each record whose index is below numLightsMax - 1. -/
theorem outputJSON_culled_skipped_in_indexing (lights : List Light) (numLights : ℤ) :
    outputJSONRecords lights numLights =
      emitRecordsSkipped lights (numLightsMax numLights lights) := by
  unfold outputJSONRecords emitRecordsSkipped
  rw [emitLoop_eq]
  simp [List.enum]

/-- Claim C10: confirmed.  A non-positive requested count defaults the
cap to the list size, so every non-culled light is emitted; a positive
requested count caps the emitted records at that count; with the CLI
default numLights = 1 at most one record is emitted. -/
theorem outputJSON_cap_behavior (lights : List Light) (numLights : ℤ) :
    (numLights ≤ 0 →
      (outputJSONRecords lights numLights).map EmitRec.light = lights.filter notCulled) ∧
    (0 < numLights →
      (outputJSONRecords lights numLights).length ≤ numLights.toNat) ∧
    (outputJSONRecords lights 1).length ≤ 1 := by
  refine ⟨fun hz => ?_, fun hp => ?_, ?_⟩
  · have hcap : numLightsMax numLights lights = lights.length := by
      unfold numLightsMax
      rw [if_neg (by omega)]
    unfold outputJSONRecords
    rw [emitLoop_eq, hcap, Nat.sub_zero]
    rw [List.take_of_length_le (List.length_filter_le _ _)]
    exact map_light_mkRec lights.length _ 0
  · have hcap : numLightsMax numLights lights = numLights.toNat := by
      unfold numLightsMax
      rw [if_pos hp]
    unfold outputJSONRecords
    calc (emitLoop (numLightsMax numLights lights) lights 0).length ≤
        numLightsMax numLights lights - 0 := emitLoop_length_le _ _ _
      _ = numLights.toNat := by rw [hcap, Nat.sub_zero]
  · calc (outputJSONRecords lights 1).length ≤ numLightsMax 1 lights - 0 :=
        emitLoop_length_le _ _ _
      _ ≤ 1 := by unfold numLightsMax; simp

/-- Claim C10, witness: at the concrete list cexLights, requested
count 0 emits exactly the two non-culled lights, and requested count 2
emits at most two records. -/
theorem outputJSON_cap_behavior_witness :
    ((outputJSONRecords cexLights 0).map EmitRec.light = cexLights.filter notCulled) ∧
    (outputJSONRecords cexLights 2).length ≤ (2:ℤ).toNat :=
  ⟨(outputJSON_cap_behavior cexLights 0).1 (by decide),
   (outputJSON_cap_behavior cexLights 2).2.1 (by decide)⟩

/-- Claim C7: confirmed.  The exit code of main is 1 exactly on a
usage error (unknown flag or missing positional argument), a failed
decode, or an empty partition, and 0 exactly on a successful run. -/
theorem mainRun_exit_code_spec {α : Type} [LinearOrderedCommRing α]
    (cli : CLIResult) (dec : Option (Image α))
    (mkLights : List SatRegion → List Light) :
    ((mainRun cli dec mkLights).1 = 1 ↔
      (cli.unknownFlag = true ∨ cli.hasFile = false ∨ dec = none ∨
        runRegions cli dec = [])) ∧
    ((mainRun cli dec mkLights).1 = 0 ↔
      (cli.unknownFlag = false ∧ cli.hasFile = true ∧ dec ≠ none ∧
        runRegions cli dec ≠ [])) := by
  obtain ⟨uf, hf, ncuts, nl, dbg⟩ := cli
  cases uf with
  | true => simp [mainRun, runRegions]
  | false =>
    cases hf with
    | false => simp [mainRun, runRegions]
    | true =>
      cases dec with
      | none => simp [mainRun, runRegions]
      | some img =>
        by_cases hreg : medianVarianceCut img ncuts = []
        · simp [mainRun, runRegions, hreg]
        · simp [mainRun, runRegions, hreg]

/-- Claim C9: confirmed.  On every run that exits 0 the stream written
to standard output is the printVariance dump of the leaf regions, one
block per region, followed by the JSON array, and the dump is
nonempty; so stdout never consists of the JSON array alone. -/
theorem mainRun_stdout_dump_before_json {α : Type} [LinearOrderedCommRing α]
    (cli : CLIResult) (dec : Option (Image α))
    (mkLights : List SatRegion → List Light)
    (hsucc : (mainRun cli dec mkLights).1 = 0) :
    (mainRun cli dec mkLights).2 =
      printVarianceItems (runRegions cli dec) ++
        [OutItem.jsonArray
          (outputJSONRecords (mkLights (runRegions cli dec)) cli.numLights)] ∧
    printVarianceItems (runRegions cli dec) ≠ [] := by
  obtain ⟨uf, hf, ncuts, nl, dbg⟩ := cli
  cases uf with
  | true => simp [mainRun] at hsucc
  | false =>
    cases hf with
    | false => simp [mainRun] at hsucc
    | true =>
      cases dec with
      | none => simp [mainRun] at hsucc
      | some img =>
        by_cases hreg : medianVarianceCut img ncuts = []
        · simp [mainRun, hreg] at hsucc
        · refine ⟨by simp [mainRun, runRegions, hreg], ?_⟩
          have hlen : (printVarianceItems (runRegions
              (⟨false, true, ncuts, nl, dbg⟩ : CLIResult) (some img))).length =
              (medianVarianceCut img ncuts).length := by
            simp [printVarianceItems, runRegions, length_enumFrom_eq]
          intro hnil
          rw [hnil] at hlen
          exact hreg (List.length_eq_zero.mp hlen.symm)

/-- Claim C9, witness: the default CLI on a decoded 1x1 image
succeeds, its partition is one region, and stdout is that one region
block followed by the JSON array. -/
theorem mainRun_stdout_dump_before_json_witness :
    (mainRun cliDefaults (some img1x1) (fun _ => [])).1 = 0 ∧
    ((mainRun cliDefaults (some img1x1) (fun _ => [])).2 =
      printVarianceItems (runRegions cliDefaults (some img1x1)) ++
        [OutItem.jsonArray
          (outputJSONRecords ((fun _ => ([] : List Light))
            (runRegions cliDefaults (some img1x1))) cliDefaults.numLights)] ∧
      printVarianceItems (runRegions cliDefaults (some img1x1)) ≠ []) :=
  ⟨by decide,
   mainRun_stdout_dump_before_json cliDefaults (some img1x1) (fun _ => []) (by decide)⟩

/-- Claim C8: confirmed.  For every light of normalized centroid
(u, v), the direction serialized by outputJSON is the normalization of
(sin(theta) cos(phi), cos(theta), sin(theta) sin(phi)) with
phi = 2 pi u - pi / 2 and theta = pi (1 - v), exactly the
equirectangular-to-direction mapping stated by the spec. -/
theorem outputDirection_matches_spec_mapping (l : Light) :
    outputDirection (l.u : ℝ) (l.v : ℝ) = specDirection (l.u : ℝ) (l.v : ℝ) := by
  unfold outputDirection sphericalDirection specDirection
  have h1 : (l.u : ℝ) * 2 * Real.pi - Real.pi * (1 / 2) =
      2 * Real.pi * (l.u : ℝ) - Real.pi / 2 := by ring
  have h2 : (1 - (l.v : ℝ)) * Real.pi = Real.pi * (1 - (l.v : ℝ)) := by ring
  rw [h1, h2]

/-- Claim C3, counterexample: the input path file.hdr carries the .hdr
extension, yet main does not hand it to the HDR loader: line 267 calls
load_image_exr on the positional argument unconditionally. -/
theorem mainLoader_hdr_input_not_hdr_loader :
    hdrPath = ("file") ++ hdrSuffix ∧ mainLoader hdrPath ≠ Loader.hdr := by
  constructor
  · rfl
  · decide

/-- Claim C3, amended: the pipeline decodes every input path with the
EXR loader; load_image_hdr exists (lines 66-76) but is never invoked,
so the decoder is fixed by core logic, not selected by extension or
content. -/
theorem mainLoader_constant_exr (p : String) : mainLoader p = Loader.exr := rfl
